import Mathlib

/-!
# socialmedia-go: the file-backed persistence client and the HTTP layer

A shallow embedding of `internal/database/database.go` and `main.go`.

Modelling conventions.

* The file system is a map from paths to file contents (`FileSystem`).
  `os.ReadFile` fails exactly on a path that has no content.  `os.WriteFile`
  fails on the paths the file system marks with a write error (no permission,
  a missing directory), leaving every content as it was, and stores the content
  under the path otherwise.
* A Go `map[string]V` is an association list with pairwise distinct keys
  (`GoMap V`); a possibly nil map is an `Option (GoMap V)`, `none` being the nil
  map.  Reading a nil map finds nothing, `delete` on it does nothing.
* `encoding/json` is not part of the repository.  A file content is kept up to
  decoding: `FileData.json db` is a document that `json.Unmarshal` decodes to
  `db` (and the document `json.Marshal db` produces), `FileData.malformed msg`
  is anything `json.Unmarshal` rejects, `msg` being the message of its error.
* `time.Now()` and `uuid.New().String()` are inputs of the operations that call
  them (`now`, `id`).
* A Go result `(T, error)` is a pair `T × Option Error`, `none` being the nil
  error.  An operation that may write returns the resulting file system too.
-/

namespace database

/-- An instant, standing for `time.Time`; the zero value is `0`. -/
abbrev Time := Int

/-- Go `type User struct`. -/
structure User where
  CreatedAt : Time
  Email : String
  Password : String
  Name : String
  Age : Int
deriving DecidableEq, Repr

/-- Go `type Post struct`. -/
structure Post where
  ID : String
  CreatedAt : Time
  UserEmail : String
  Text : String
deriving DecidableEq, Repr

/-- The zero value `User{}`. -/
def User.zero : User := ⟨0, "", "", "", 0⟩

/-- The zero value `Post{}`. -/
def Post.zero : Post := ⟨"", 0, "", ""⟩

/-- A non-nil Go `map[string]V`. -/
abbrev GoMap (V : Type) := AList (fun _ : String => V)

/-- Go `type databaseSchema struct`; `none` is a nil map. -/
structure databaseSchema where
  Users : Option (GoMap User)
  Posts : Option (GoMap Post)
deriving DecidableEq

/-- The zero value `databaseSchema{}`: both maps nil. -/
def databaseSchema.zero : databaseSchema := ⟨none, none⟩

/-- The comma-ok lookup `m[k]` on a possibly nil map. -/
def mapLookup {V : Type} (m : Option (GoMap V)) (k : String) : Option V :=
  match m with
  | none => none
  | some a => a.lookup k

/-- The builtin `delete(m, k)` on a possibly nil map. -/
def mapDelete {V : Type} (m : Option (GoMap V)) (k : String) : Option (GoMap V) :=
  match m with
  | none => none
  | some a => some (a.erase k)

/-- The guard `if m == nil { m = make(map[string]V) }`. -/
def mapInit {V : Type} (m : Option (GoMap V)) : GoMap V :=
  match m with
  | none => ∅
  | some a => a

/-- Go `error` values the client can return. -/
inductive Error where
  | New (msg : String)
  | ReadFile (path : String)
  | Unmarshal (msg : String)
  | WriteFile (msg : String)
deriving DecidableEq, Repr

/-- The method `Error()` of an `error`. -/
def Error.message : Error → String
  | .New msg => msg
  | .ReadFile path => "open " ++ path ++ ": no such file or directory"
  | .Unmarshal msg => msg
  | .WriteFile msg => msg

/-- The content of a file, up to JSON decoding. -/
inductive FileData where
  | json (db : databaseSchema)
  | malformed (msg : String)
deriving DecidableEq

/-- The file system: the content of every path that can be read, and, for every
path `os.WriteFile` fails on, the message of its error. -/
structure FileSystem where
  files : String → Option FileData
  writeError : String → Option String

/-- The file system with `data` stored under `path`. -/
def FileSystem.store (fs : FileSystem) (path : String) (data : FileData) : FileSystem :=
  { fs with files := fun p => if p = path then some data else fs.files p }

/-- Library `os.ReadFile`. -/
def osReadFile (fs : FileSystem) (path : String) : Except Error FileData :=
  match fs.files path with
  | some data => .ok data
  | none => .error (.ReadFile path)

/-- Library `os.WriteFile`. -/
def osWriteFile (fs : FileSystem) (path : String) (data : FileData) :
    Except Error FileSystem :=
  match fs.writeError path with
  | some msg => .error (.WriteFile msg)
  | none => .ok (fs.store path data)

/-- Library `json.Marshal` on a `databaseSchema`. -/
def jsonMarshal (db : databaseSchema) : Except Error FileData :=
  .ok (.json db)

/-- Library `json.Unmarshal` into a zero `databaseSchema`. -/
def jsonUnmarshal (data : FileData) : Except Error databaseSchema :=
  match data with
  | .json db => .ok db
  | .malformed msg => .error (.Unmarshal msg)

/-- Go `type Client struct`. -/
structure Client where
  file : String
deriving DecidableEq, Repr

/-- Go `NewClient`. -/
def NewClient (filePath : String) : Client := ⟨filePath⟩

/-- Go `Client.createDb`. -/
def createDb (c : Client) (fs : FileSystem) : Option Error × FileSystem :=
  match jsonMarshal databaseSchema.zero with
  | .error err => (some err, fs)
  | .ok data =>
    match osWriteFile fs c.file data with
    | .error err => (some err, fs)
    | .ok fs1 => (none, fs1)

/-- Go `Client.EnsureDb`. -/
def EnsureDb (c : Client) (fs : FileSystem) : Option Error × FileSystem :=
  match osReadFile fs "testdata/hello" with
  | .error _ => createDb c fs
  | .ok _ => (none, fs)

/-- Go `Client.updateDB`; the error of `json.Marshal` is dropped there, and the
data it returns with an error is empty. -/
def updateDB (c : Client) (db : databaseSchema) (fs : FileSystem) :
    Option Error × FileSystem :=
  let data : FileData :=
    match jsonMarshal db with
    | .error _ => .malformed "unexpected end of JSON input"
    | .ok data => data
  match osWriteFile fs c.file data with
  | .error err => (some err, fs)
  | .ok fs1 => (none, fs1)

/-- Go `Client.readDB`. -/
def readDB (c : Client) (fs : FileSystem) : databaseSchema × Option Error :=
  match osReadFile fs c.file with
  | .error err => (databaseSchema.zero, some err)
  | .ok data =>
    match jsonUnmarshal data with
    | .error err => (databaseSchema.zero, some err)
    | .ok dbSchemaPointer => (dbSchemaPointer, none)

/-- Go `userIsEligible`. -/
def userIsEligible (email password : String) (age : Int) : Option Error :=
  if email = "" then some (.New "email can't be empty")
  else if password = "" then some (.New "password can't be empty")
  else if age < 18 then some (.New "age must be at least 18 years old")
  else none

/-- Go `Client.CreateUser`. -/
def CreateUser (c : Client) (now : Time) (email password name : String) (age : Int)
    (fs : FileSystem) : (User × Option Error) × FileSystem :=
  match userIsEligible email password age with
  | some err => ((User.zero, some err), fs)
  | none =>
    match readDB c fs with
    | (_, some err) => ((User.zero, some err), fs)
    | (currentData, none) =>
      let user : User :=
        { Email := email, Password := password, Name := name, Age := age, CreatedAt := now }
      let users : GoMap User := mapInit currentData.Users
      match users.lookup email with
      | some _ => ((user, some (.New "User already exists")), fs)
      | none =>
        match updateDB c { currentData with Users := some (users.insert email user) } fs with
        | (some err, fs1) => ((user, some err), fs1)
        | (none, fs1) => ((user, none), fs1)

/-- Go `Client.UpdateUser`. -/
def UpdateUser (c : Client) (email password name : String) (age : Int)
    (fs : FileSystem) : (User × Option Error) × FileSystem :=
  match readDB c fs with
  | (_, some err) => ((User.zero, some err), fs)
  | (currentData, none) =>
    match currentData.Users with
    | none => ((User.zero, some (.New "User doesn't exists")), fs)
    | some users =>
      match users.lookup email with
      | none => ((User.zero, some (.New "User doesn't exists")), fs)
      | some user0 =>
        let user : User := { user0 with Age := age, Password := password, Name := name }
        match updateDB c { currentData with Users := some (users.insert email user) } fs with
        | (some err, fs1) => ((user, some err), fs1)
        | (none, fs1) => ((user, none), fs1)

/-- Go `Client.Getuser`. -/
def Getuser (c : Client) (email : String) (fs : FileSystem) : User × Option Error :=
  match readDB c fs with
  | (_, some err) => (User.zero, some err)
  | (currentData, none) =>
    match mapLookup currentData.Users email with
    | none => (User.zero, some (.New "User doesn[t exists"))
    | some user => (user, none)

/-- Go `Client.DeleteUser`. -/
def DeleteUser (c : Client) (email : String) (fs : FileSystem) :
    Option Error × FileSystem :=
  match readDB c fs with
  | (_, some err) => (some err, fs)
  | (currentData, none) =>
    updateDB c { currentData with Users := mapDelete currentData.Users email } fs

/-- Go `validatePostParams`. -/
def validatePostParams (userEmail : String) : Option Error :=
  if userEmail = "" then some (.New "email can't be empty") else none

/-- Go `Client.CreatePost`. -/
def CreatePost (c : Client) (now : Time) (id : String) (userEmail text : String)
    (fs : FileSystem) : (Post × Option Error) × FileSystem :=
  match readDB c fs with
  | (_, some err) => ((Post.zero, some err), fs)
  | (data, none) =>
    match validatePostParams userEmail with
    | some err => ((Post.zero, some err), fs)
    | none =>
      match mapLookup data.Users userEmail with
      | none => ((Post.zero, some (.New "User does not exist")), fs)
      | some _ =>
        let newPost : Post :=
          { ID := id, CreatedAt := now, UserEmail := userEmail, Text := text }
        let posts : GoMap Post := mapInit data.Posts
        match updateDB c { data with Posts := some (posts.insert id newPost) } fs with
        | (some err, fs1) => ((newPost, some err), fs1)
        | (none, fs1) => ((newPost, none), fs1)

/-- The order in which a `range` loop visits the entries of a map.  Go leaves it
unspecified; every such order lists each entry once (`RangeOrder.Valid`). -/
abbrev RangeOrder := GoMap Post → List (Sigma fun _ : String => Post)

/-- Every entry of the map is visited exactly once. -/
def RangeOrder.Valid (order : RangeOrder) : Prop :=
  ∀ m : GoMap Post, (order m).Perm m.entries

/-- Go `Client.GetPosts`; the loop body is the step of the fold. -/
def GetPosts (c : Client) (order : RangeOrder) (userEmail : String) (fs : FileSystem) :
    List Post × Option Error :=
  match readDB c fs with
  | (_, some err) => ([], some err)
  | (data, none) =>
    let dataPosts : GoMap Post := mapInit data.Posts
    let posts := (order dataPosts).foldl
      (fun posts entry =>
        if entry.2.UserEmail = userEmail then posts ++ [entry.2] else posts) []
    (posts, none)

/-- Go `Client.DeletePost`. -/
def DeletePost (c : Client) (id : String) (fs : FileSystem) : Option Error × FileSystem :=
  match readDB c fs with
  | (_, some err) => (some err, fs)
  | (currentData, none) =>
    updateDB c { currentData with Posts := mapDelete currentData.Posts id } fs


/-- The validation rule read as a property of a stored schema: every stored user
has age at least 18 and a non-empty password and email. -/
def UsersValid (db : databaseSchema) : Prop :=
  ∀ k u, mapLookup db.Users k = some u → 18 ≤ u.Age ∧ u.Password ≠ "" ∧ u.Email ≠ ""

end database

/-! ## The HTTP layer (`main.go`)

`net/http` is not part of the repository.  A `ResponseWriter` keeps the header
map of `w.Header()`, the status line once `WriteHeader` ran, together with the
header map as it was then (what goes on the wire), and the payloads written.
The body of a request is a string; `json.NewDecoder(r.Body).Decode` is an input
(`Decoders`), one decoder for each of the three parameter structs.  A JSON
payload is kept up to decoding, as for the backing file. -/

namespace socialmedia

open database

/-- Go `type errorBody struct`. -/
structure errorBody where
  Error : String
deriving DecidableEq, Repr

/-- Go `type apiConfig struct`. -/
structure apiConfig where
  dbClient : Client
deriving DecidableEq, Repr

/-- Go `type parameters struct`. -/
structure parameters where
  Email : String
  Password : String
  Name : String
  Age : Int
deriving DecidableEq, Repr

/-- Go `type postParameters struct`. -/
structure postParameters where
  UserEmail : String
  Text : String
deriving DecidableEq, Repr

/-- The `type parameters struct` local to `handlerUpdateUser`. -/
structure updateParameters where
  Password : String
  Name : String
  Age : Int
deriving DecidableEq, Repr

/-- The values passed as `payload interface{}` to `respondWithJSON`. -/
inductive Payload where
  | user (u : User)
  | posts (ps : List Post)
  | errorBody (b : errorBody)
  | emptyStruct
deriving DecidableEq, Repr

/-- Library `json.Marshal` on a payload. -/
def jsonMarshalPayload (payload : Payload) : Except Error Payload :=
  .ok payload

/-- Library `json.Decoder.Decode` into each of the parameter structs. -/
structure Decoders where
  parameters : String → Except Error parameters
  postParameters : String → Except Error postParameters
  updateParameters : String → Except Error updateParameters

/-- Library `http.Request`, the parts the handlers read. -/
structure Request where
  Method : String
  Path : String
  Body : String
deriving DecidableEq, Repr

/-- Library `http.ResponseWriter`. -/
structure ResponseWriter where
  header : List (String × String)
  wroteHeader : Option (Nat × List (String × String))
  body : List Payload
deriving DecidableEq, Repr

/-- A writer nothing was written to. -/
def ResponseWriter.fresh : ResponseWriter := ⟨[], none, []⟩

/-- Library `w.Header().Set(key, value)`. -/
def ResponseWriter.Set (w : ResponseWriter) (key value : String) : ResponseWriter :=
  { w with header := (key, value) :: w.header.filter (fun kv => kv.1 ≠ key) }

/-- Library `w.WriteHeader(code)`: the first call fixes the status and the
headers sent, a later call is ignored. -/
def ResponseWriter.WriteHeader (w : ResponseWriter) (code : Nat) : ResponseWriter :=
  match w.wroteHeader with
  | some _ => w
  | none => { w with wroteHeader := some (code, w.header) }

/-- Library `w.Write(data)`: writes the header with status 200 first when none
was written. -/
def ResponseWriter.Write (w : ResponseWriter) (data : Payload) : ResponseWriter :=
  let w1 := w.WriteHeader 200
  { w1 with body := w1.body ++ [data] }

/-- A response as sent: status, headers, body. -/
structure Response where
  status : Nat
  header : List (String × String)
  body : List Payload
deriving DecidableEq, Repr

/-- The value of a header of a response (`Header.Get`). -/
def Response.Get (resp : Response) (key : String) : Option String :=
  resp.header.lookup key

/-- What the server sends once the handler has returned: a handler that wrote
no header gets status 200 with the header map as it is then. -/
def finishRequest (w : ResponseWriter) : Response :=
  match w.wroteHeader with
  | some (code, sent) => ⟨code, sent, w.body⟩
  | none => ⟨200, w.header, w.body⟩

/-- Library `strings.TrimPrefix` on the characters. -/
def trimPrefixChars : List Char → List Char → Option (List Char)
  | s, [] => some s
  | [], _ :: _ => none
  | c :: s, p :: ps => if c = p then trimPrefixChars s ps else none

/-- Library `strings.TrimPrefix`. -/
def TrimPrefix (s pre : String) : String :=
  match trimPrefixChars s.data pre.data with
  | some rest => ⟨rest⟩
  | none => s

/-- Go `respondWithJSON`; `none` is a nil payload. -/
def respondWithJSON (w : ResponseWriter) (code : Nat) (payload : Option Payload) :
    ResponseWriter :=
  let w1 := w.Set "Content-Type" "application/json"
  let w2 := w1.Set "Access-Control-Allow-Methods" "POST, GET, OPTIONS, PUT, DELETE"
  match payload with
  | none => w2
  | some payload =>
    match jsonMarshalPayload payload with
    | .error _ => (w2.WriteHeader 500).Write (.errorBody ⟨"error marshalling"⟩)
    | .ok response => (w2.WriteHeader code).Write response

/-- Go `respondWithError`; `none` is a nil error. -/
def respondWithError (w : ResponseWriter) (code : Nat) (err : Option Error) :
    ResponseWriter :=
  match err with
  | none => w
  | some err => respondWithJSON w code (some (.errorBody ⟨err.message⟩))

/-- Go `testHandler`. -/
def testHandler (w : ResponseWriter) (_r : Request) : ResponseWriter :=
  respondWithJSON w 200 (some (.user { User.zero with Email := "test@example.com" }))

/-- Go `testErrHandler`. -/
def testErrHandler (w : ResponseWriter) (_r : Request) : ResponseWriter :=
  respondWithError w 500 (some (.New "server error"))

/-- Go `apiConfig.handlerCreateUser`. -/
def handlerCreateUser (apiCfg : apiConfig) (dec : Decoders) (now : Time)
    (w : ResponseWriter) (r : Request) (fs : FileSystem) : ResponseWriter × FileSystem :=
  match dec.parameters r.Body with
  | .error err => (respondWithError w 400 (some err), fs)
  | .ok params =>
    match CreateUser apiCfg.dbClient now params.Email params.Password params.Name
        params.Age fs with
    | ((_, some err), fs1) => (respondWithError w 400 (some err), fs1)
    | ((_, none), fs1) => (w.WriteHeader 201, fs1)

/-- Go `apiConfig.handlerDeleteUser`. -/
def handlerDeleteUser (apiCfg : apiConfig) (w : ResponseWriter) (r : Request)
    (fs : FileSystem) : ResponseWriter × FileSystem :=
  let email := TrimPrefix r.Path "/users/"
  match DeleteUser apiCfg.dbClient email fs with
  | (some err, fs1) => (respondWithError w 400 (some err), fs1)
  | (none, fs1) => (respondWithJSON w 200 (some .emptyStruct), fs1)

/-- Go `apiConfig.handlerGetUser`. -/
def handlerGetUser (apiCfg : apiConfig) (w : ResponseWriter) (r : Request)
    (fs : FileSystem) : ResponseWriter × FileSystem :=
  let email := TrimPrefix r.Path "/users/"
  match Getuser apiCfg.dbClient email fs with
  | (_, some err) => (respondWithError w 400 (some err), fs)
  | (user, none) => (respondWithJSON w 200 (some (.user user)), fs)

/-- Go `apiConfig.handlerUpdateUser`. -/
def handlerUpdateUser (apiCfg : apiConfig) (dec : Decoders) (w : ResponseWriter)
    (r : Request) (fs : FileSystem) : ResponseWriter × FileSystem :=
  let email := TrimPrefix r.Path "/users/"
  match dec.updateParameters r.Body with
  | .error err => (respondWithError w 400 (some err), fs)
  | .ok params =>
    match UpdateUser apiCfg.dbClient email params.Password params.Name params.Age fs with
    | ((_, some err), fs1) => (respondWithError w 400 (some err), fs1)
    | ((user, none), fs1) => (respondWithJSON w 200 (some (.user user)), fs1)

/-- Go `apiConfig.endpointUsersHandler`. -/
def endpointUsersHandler (apiCfg : apiConfig) (dec : Decoders) (now : Time)
    (w : ResponseWriter) (r : Request) (fs : FileSystem) : ResponseWriter × FileSystem :=
  if r.Method = "GET" then handlerGetUser apiCfg w r fs
  else if r.Method = "POST" then handlerCreateUser apiCfg dec now w r fs
  else if r.Method = "PUT" then handlerUpdateUser apiCfg dec w r fs
  else if r.Method = "DELETE" then handlerDeleteUser apiCfg w r fs
  else (respondWithError w 404 (some (.New "method not supported")), fs)

/-- Go `apiConfig.handlerCreatePost`. -/
def handlerCreatePost (apiCfg : apiConfig) (dec : Decoders) (now : Time) (id : String)
    (w : ResponseWriter) (r : Request) (fs : FileSystem) : ResponseWriter × FileSystem :=
  match dec.postParameters r.Body with
  | .error err => (respondWithError w 400 (some err), fs)
  | .ok params =>
    match CreatePost apiCfg.dbClient now id params.UserEmail params.Text fs with
    | ((_, some err), fs1) => (respondWithError w 400 (some err), fs1)
    | ((_, none), fs1) => (w.WriteHeader 201, fs1)

/-- Go `apiConfig.handlerDeletePost`. -/
def handlerDeletePost (apiCfg : apiConfig) (w : ResponseWriter) (r : Request)
    (fs : FileSystem) : ResponseWriter × FileSystem :=
  let uuid := TrimPrefix r.Path "/posts/"
  match DeletePost apiCfg.dbClient uuid fs with
  | (some err, fs1) => (respondWithError w 400 (some err), fs1)
  | (none, fs1) => (respondWithJSON w 200 (some .emptyStruct), fs1)

/-- Go `apiConfig.handlerGetPosts`. -/
def handlerGetPosts (apiCfg : apiConfig) (order : RangeOrder) (w : ResponseWriter)
    (r : Request) (fs : FileSystem) : ResponseWriter × FileSystem :=
  let email := TrimPrefix r.Path "/posts/"
  match GetPosts apiCfg.dbClient order email fs with
  | (_, some err) => (respondWithError w 400 (some err), fs)
  | (posts, none) => (respondWithJSON w 200 (some (.posts posts)), fs)

/-- Go `apiConfig.endpointPostsHandler`. -/
def endpointPostsHandler (apiCfg : apiConfig) (dec : Decoders) (order : RangeOrder)
    (now : Time) (id : String) (w : ResponseWriter) (r : Request) (fs : FileSystem) :
    ResponseWriter × FileSystem :=
  if r.Method = "GET" then handlerGetPosts apiCfg order w r fs
  else if r.Method = "POST" then handlerCreatePost apiCfg dec now id w r fs
  else if r.Method = "DELETE" then handlerDeletePost apiCfg w r fs
  else (respondWithError w 404 (some (.New "method not supported")), fs)

/-- The handlers `main` registers on the mux. -/
inductive Handler where
  | test
  | testErr
  | users
  | posts
deriving DecidableEq, Repr

/-- One request served by a registered handler on a fresh writer: the response
sent and the file system left. -/
def serve (apiCfg : apiConfig) (dec : Decoders) (order : RangeOrder) (now : Time)
    (id : String) (h : Handler) (r : Request) (fs : FileSystem) : Response × FileSystem :=
  match h with
  | .test => (finishRequest (testHandler ResponseWriter.fresh r), fs)
  | .testErr => (finishRequest (testErrHandler ResponseWriter.fresh r), fs)
  | .users =>
    let res := endpointUsersHandler apiCfg dec now ResponseWriter.fresh r fs
    (finishRequest res.1, res.2)
  | .posts =>
    let res := endpointPostsHandler apiCfg dec order now id ResponseWriter.fresh r fs
    (finishRequest res.1, res.2)

/-- The global `apiCfg` of `main.go`. -/
def apiCfg : apiConfig := ⟨NewClient "db.json"⟩

/-- The JSON text of a request that creates user `c@d.com`, aged 18. -/
def exampleUserBody : String :=
  "\x7b\"email\":\"c@d.com\",\"password\":\"q\",\"name\":\"C\",\"age\":18\x7d"

/-- The JSON text of a request that creates a post of `a@b.com`. -/
def examplePostBody : String :=
  "\x7b\"userEmail\":\"a@b.com\",\"text\":\"hi\"\x7d"

/-- A decoder that accepts two request bodies and rejects every other one. -/
def exampleDecoders : Decoders where
  parameters := fun body =>
    if body = exampleUserBody then
      .ok ⟨"c@d.com", "q", "C", 18⟩
    else .error (.Unmarshal "unexpected end of JSON input")
  postParameters := fun body =>
    if body = examplePostBody then .ok ⟨"a@b.com", "hi"⟩
    else .error (.Unmarshal "unexpected end of JSON input")
  updateParameters := fun _ => .error (.Unmarshal "unexpected end of JSON input")

/-- The request `POST /users` creating `c@d.com`. -/
def examplePostUsers : Request :=
  ⟨"POST", "/users", exampleUserBody⟩

/-- The request `POST /posts` creating a post of `a@b.com`. -/
def examplePostPosts : Request :=
  ⟨"POST", "/posts", examplePostBody⟩

end socialmedia

namespace database

/-! ## Sample data -/

/-- A user that passes validation. -/
def exampleUser : User := ⟨100, "a@b.com", "p", "A", 20⟩

/-- A store with one user and a nil posts map. -/
def exampleDb : databaseSchema := ⟨some (AList.singleton "a@b.com" exampleUser), none⟩

/-- The client of `main.go`. -/
def exampleClient : Client := NewClient "db.json"

/-- A file system whose only file is the backing file, holding `exampleDb`. -/
def exampleFs : FileSystem :=
  ⟨fun p => if p = "db.json" then some (.json exampleDb) else none, fun _ => none⟩

/-- The same files, the backing file being readable and not writable. -/
def exampleReadOnlyFs : FileSystem :=
  ⟨fun p => if p = "db.json" then some (.json exampleDb) else none,
   fun p => if p = "db.json" then some "open db.json: permission denied" else none⟩

/-- A post of `a@b.com`. -/
def examplePost1 : Post := ⟨"id-1", 101, "a@b.com", "hi"⟩

/-- A post of `c@d.com`. -/
def examplePost2 : Post := ⟨"id-2", 102, "c@d.com", "ho"⟩

/-- A store with one user and two posts of different authors. -/
def examplePostsDb : databaseSchema :=
  ⟨some (AList.singleton "a@b.com" exampleUser),
   some ((AList.singleton "id-1" examplePost1).insert "id-2" examplePost2)⟩

/-- A file system whose backing file holds `examplePostsDb`. -/
def examplePostsFs : FileSystem :=
  ⟨fun p => if p = "db.json" then some (.json examplePostsDb) else none, fun _ => none⟩

/-- The iteration order that follows the association list. -/
def exampleOrder : RangeOrder := fun m => m.entries

/-- A file system in which `testdata/hello` exists and the backing file does
not. -/
def exampleHelloFs : FileSystem :=
  ⟨fun p => if p = "testdata/hello" then some (.malformed "hello") else none, fun _ => none⟩

/-! ## Reading and writing the backing file -/

theorem readDB_ok_iff (c : Client) (fs : FileSystem) (db : databaseSchema) :
    readDB c fs = (db, none) ↔ fs.files c.file = some (.json db) := by
  unfold readDB osReadFile jsonUnmarshal
  cases h : fs.files c.file with
  | none => simp
  | some data =>
    cases data with
    | json db1 => simp
    | malformed raw => simp

theorem updateDB_of_writable (c : Client) (db : databaseSchema) (fs : FileSystem)
    (hw : fs.writeError c.file = none) :
    updateDB c db fs = (none, fs.store c.file (.json db)) := by
  simp [updateDB, osWriteFile, jsonMarshal, hw]

theorem updateDB_of_unwritable (c : Client) (db : databaseSchema) (fs : FileSystem)
    (msg : String) (hw : fs.writeError c.file = some msg) :
    updateDB c db fs = (some (.WriteFile msg), fs) := by
  simp [updateDB, osWriteFile, jsonMarshal, hw]

theorem readDB_store (c : Client) (db : databaseSchema) (fs : FileSystem) :
    readDB c (fs.store c.file (.json db)) = (db, none) := by
  rw [readDB_ok_iff]
  simp [FileSystem.store]

theorem store_other (fs : FileSystem) (path p : String) (data : FileData) (hp : p ≠ path) :
    (fs.store path data).files p = fs.files p := by
  simp [FileSystem.store, hp]

/-- A write that fails leaves the file system as it was; one that succeeds
leaves the written schema in the backing file. -/
theorem readDB_updateDB (c : Client) (db0 db : databaseSchema) (fs : FileSystem)
    (hread : readDB c fs = (db0, none)) :
    readDB c (updateDB c db fs).2 = (db, none) ∨ readDB c (updateDB c db fs).2 = (db0, none) := by
  cases hw : fs.writeError c.file with
  | none =>
    left
    rw [updateDB_of_writable c db fs hw]
    exact readDB_store c db fs
  | some msg =>
    right
    rw [updateDB_of_unwritable c db fs msg hw]
    exact hread

/-! ## Lookups in possibly nil maps -/

theorem lookup_mapInit {V : Type} (m : Option (GoMap V)) (k : String) :
    (mapInit m).lookup k = mapLookup m k := by
  cases m <;> simp [mapLookup, mapInit]

theorem mapLookup_mapDelete_self {V : Type} (m : Option (GoMap V)) (k : String) :
    mapLookup (mapDelete m k) k = none := by
  cases m <;> simp [mapLookup, mapDelete]

theorem mapLookup_mapDelete_ne {V : Type} (m : Option (GoMap V)) (k j : String)
    (h : j ≠ k) : mapLookup (mapDelete m k) j = mapLookup m j := by
  cases m with
  | none => simp [mapLookup, mapDelete]
  | some a => simp [mapLookup, mapDelete, AList.lookup_erase_ne h]

/-! ## Users -/

theorem userIsEligible_none_iff (email password : String) (age : Int) :
    userIsEligible email password age = none ↔ email ≠ "" ∧ password ≠ "" ∧ 18 ≤ age := by
  unfold userIsEligible
  by_cases h1 : email = "" <;> by_cases h2 : password = "" <;> by_cases h3 : age < 18 <;>
    simp [h1, h2, h3]
  all_goals omega

theorem userIsEligible_some_mem (email password : String) (age : Int) (err : Error)
    (h : userIsEligible email password age = some err) :
    err ∈ [Error.New "email can't be empty", Error.New "password can't be empty",
      Error.New "age must be at least 18 years old"] := by
  unfold userIsEligible at h
  by_cases h1 : email = "" <;> by_cases h2 : password = "" <;> by_cases h3 : age < 18 <;>
    simp [h1, h2, h3] at h
  all_goals simp [← h]

/-- The result of `CreateUser` on a key that is taken, once validation has
passed and the store was read. -/
theorem CreateUser_of_key (c : Client) (now : Time) (email password name : String)
    (age : Int) (fs : FileSystem) (db : databaseSchema) (u : User)
    (hel : userIsEligible email password age = none) (hread : readDB c fs = (db, none))
    (hkey : mapLookup db.Users email = some u) :
    CreateUser c now email password name age fs
      = ((⟨now, email, password, name, age⟩, some (.New "User already exists")), fs) := by
  unfold CreateUser
  simp only [hel, hread]
  rw [lookup_mapInit, hkey]

/-- The result of `CreateUser` on a free key when the write succeeds. -/
theorem CreateUser_of_new_writable (c : Client) (now : Time) (email password name : String)
    (age : Int) (fs : FileSystem) (db : databaseSchema)
    (hel : userIsEligible email password age = none) (hread : readDB c fs = (db, none))
    (hkey : mapLookup db.Users email = none) (hw : fs.writeError c.file = none) :
    CreateUser c now email password name age fs
      = ((⟨now, email, password, name, age⟩, none),
          fs.store c.file (.json { db with
            Users := some ((mapInit db.Users).insert email
              ⟨now, email, password, name, age⟩) })) := by
  unfold CreateUser
  simp only [hel, hread]
  rw [lookup_mapInit, hkey]
  simp [updateDB_of_writable _ _ _ hw]

/-- The result of `CreateUser` on a free key when the write fails. -/
theorem CreateUser_of_new_unwritable (c : Client) (now : Time)
    (email password name : String) (age : Int) (fs : FileSystem) (db : databaseSchema)
    (msg : String) (hel : userIsEligible email password age = none)
    (hread : readDB c fs = (db, none)) (hkey : mapLookup db.Users email = none)
    (hw : fs.writeError c.file = some msg) :
    CreateUser c now email password name age fs
      = ((⟨now, email, password, name, age⟩, some (.WriteFile msg)), fs) := by
  unfold CreateUser
  simp only [hel, hread]
  rw [lookup_mapInit, hkey]
  simp [updateDB_of_unwritable _ _ _ msg hw]

/-- C1 (as stated, refuted): the store holds a user under `a@b.com`, and
`CreateUser` with that email and an empty password fails with the validation
error, not with the conflict error. -/
theorem CreateUser_duplicate_not_always_conflict :
    readDB exampleClient exampleFs = (exampleDb, none) ∧
    mapLookup exampleDb.Users "a@b.com" = some exampleUser ∧
    (CreateUser exampleClient 7 "a@b.com" "" "B" 30 exampleFs).1.2
      = some (.New "password can't be empty") ∧
    (CreateUser exampleClient 7 "a@b.com" "" "B" 30 exampleFs).1.2
      ≠ some (.New "User already exists") := by
  refine ⟨?_, ?_, ?_, ?_⟩
  · rfl
  · rfl
  · rfl
  · decide

/-- C1 (amended): when the store is readable and holds a user under `email`,
`CreateUser` fails and writes nothing, so the record under `email`, every other
user and every post stay as they were; the error is the conflict error when the
arguments pass validation, and the validation error otherwise. -/
theorem CreateUser_duplicate (c : Client) (now : Time) (email password name : String)
    (age : Int) (fs : FileSystem) (db : databaseSchema) (u : User)
    (hread : readDB c fs = (db, none)) (hkey : mapLookup db.Users email = some u) :
    (CreateUser c now email password name age fs).2 = fs ∧
    readDB c (CreateUser c now email password name age fs).2 = (db, none) ∧
    (email ≠ "" → password ≠ "" → 18 ≤ age →
      (CreateUser c now email password name age fs).1.2
        = some (.New "User already exists")) ∧
    (∀ err, userIsEligible email password age = some err →
      (CreateUser c now email password name age fs).1.2 = some err) := by
  have hfs : (CreateUser c now email password name age fs).2 = fs := by
    cases hel : userIsEligible email password age with
    | some err => simp [CreateUser, hel]
    | none => rw [CreateUser_of_key c now email password name age fs db u hel hread hkey]
  refine ⟨hfs, by rw [hfs]; exact hread, ?_, ?_⟩
  · intro h1 h2 h3
    have hel := (userIsEligible_none_iff email password age).2 ⟨h1, h2, h3⟩
    rw [CreateUser_of_key c now email password name age fs db u hel hread hkey]
  · intro err hel
    simp [CreateUser, hel]

theorem CreateUser_duplicate_witness :
    (CreateUser exampleClient 7 "a@b.com" "q" "B" 30 exampleFs).2 = exampleFs ∧
    readDB exampleClient (CreateUser exampleClient 7 "a@b.com" "q" "B" 30 exampleFs).2
      = (exampleDb, none) ∧
    ("a@b.com" ≠ "" → "q" ≠ "" → (18 : Int) ≤ 30 →
      (CreateUser exampleClient 7 "a@b.com" "q" "B" 30 exampleFs).1.2
        = some (.New "User already exists")) ∧
    (∀ err, userIsEligible "a@b.com" "q" 30 = some err →
      (CreateUser exampleClient 7 "a@b.com" "q" "B" 30 exampleFs).1.2 = some err) :=
  CreateUser_duplicate exampleClient 7 "a@b.com" "q" "B" 30 exampleFs exampleDb exampleUser
    rfl rfl

/-- C2 (as stated, refuted): the backing file is readable and cannot be written;
`CreateUser` with a non-empty email and password, age 18 and an email that is
not yet a key returns the error of the write, so it does not succeed. -/
theorem CreateUser_valid_fails_on_write_error :
    readDB exampleClient exampleReadOnlyFs = (exampleDb, none) ∧
    "c@d.com" ≠ "" ∧ "q" ≠ "" ∧ (18 : Int) ≤ 18 ∧
    mapLookup exampleDb.Users "c@d.com" = none ∧
    (CreateUser exampleClient 7 "c@d.com" "q" "C" 18 exampleReadOnlyFs).1.2
      = some (.WriteFile "open db.json: permission denied") ∧
    (CreateUser exampleClient 7 "c@d.com" "q" "C" 18 exampleReadOnlyFs).1.2 ≠ none := by
  refine ⟨rfl, by decide, by decide, by decide, rfl, rfl, ?_⟩
  decide

/-- C2 (amended): `CreateUser` fails with a validation error and writes nothing
when the email is empty, the password is empty or the age is below 18; on a
readable store whose backing file can be written it succeeds when both are
non-empty, the age is at least 18 and the email is not yet a key.  With
otherwise valid arguments, age 17 fails and, the file being writable, age 18
succeeds. -/
theorem CreateUser_validation (c : Client) (now : Time) (email password name : String)
    (age : Int) (fs : FileSystem) (db : databaseSchema)
    (hread : readDB c fs = (db, none)) :
    ((email = "" ∨ password = "" ∨ age < 18) →
      ∃ err, err ∈ [Error.New "email can't be empty", Error.New "password can't be empty",
          Error.New "age must be at least 18 years old"] ∧
        CreateUser c now email password name age fs = ((User.zero, some err), fs)) ∧
    (email ≠ "" → password ≠ "" → 18 ≤ age → mapLookup db.Users email = none →
      fs.writeError c.file = none →
      (CreateUser c now email password name age fs).1.2 = none) ∧
    (email ≠ "" → password ≠ "" →
      CreateUser c now email password name 17 fs
        = ((User.zero, some (.New "age must be at least 18 years old")), fs)) ∧
    (email ≠ "" → password ≠ "" → mapLookup db.Users email = none →
      fs.writeError c.file = none →
      (CreateUser c now email password name 18 fs).1.2 = none) := by
  refine ⟨?_, ?_, ?_, ?_⟩
  · intro h
    cases hel : userIsEligible email password age with
    | none =>
      obtain ⟨h1, h2, h3⟩ := (userIsEligible_none_iff email password age).1 hel
      rcases h with h | h | h
      · exact absurd h h1
      · exact absurd h h2
      · omega
    | some err =>
      exact ⟨err, userIsEligible_some_mem email password age err hel, by simp [CreateUser, hel]⟩
  · intro h1 h2 h3 hkey hw
    have hel := (userIsEligible_none_iff email password age).2 ⟨h1, h2, h3⟩
    rw [CreateUser_of_new_writable c now email password name age fs db hel hread hkey hw]
  · intro h1 h2
    simp [CreateUser, userIsEligible, h1, h2]
  · intro h1 h2 hkey hw
    have hel := (userIsEligible_none_iff email password 18).2 ⟨h1, h2, le_refl _⟩
    rw [CreateUser_of_new_writable c now email password name 18 fs db hel hread hkey hw]

theorem CreateUser_validation_witness :
    (CreateUser exampleClient 7 "c@d.com" "q" "C" 18 exampleFs).1.2 = none ∧
    CreateUser exampleClient 7 "c@d.com" "q" "C" 17 exampleFs
      = ((User.zero, some (.New "age must be at least 18 years old")), exampleFs) :=
  ⟨(CreateUser_validation exampleClient 7 "c@d.com" "q" "C" 18 exampleFs exampleDb rfl).2.1
      (by decide) (by decide) (by decide) rfl rfl,
    (CreateUser_validation exampleClient 7 "c@d.com" "q" "C" 18 exampleFs exampleDb rfl).2.2.1
      (by decide) (by decide)⟩

/-- C3 (as stated, refuted): the backing file is readable, holds a user under
`a@b.com` and cannot be written; `UpdateUser` returns the error of the write,
and the record under `a@b.com` is the old one. -/
theorem UpdateUser_fails_on_write_error :
    readDB exampleClient exampleReadOnlyFs = (exampleDb, none) ∧
    mapLookup exampleDb.Users "a@b.com" = some exampleUser ∧
    (UpdateUser exampleClient "a@b.com" "q" "B" 30 exampleReadOnlyFs).1.2
      = some (.WriteFile "open db.json: permission denied") ∧
    (UpdateUser exampleClient "a@b.com" "q" "B" 30 exampleReadOnlyFs).1.2 ≠ none ∧
    Getuser exampleClient "a@b.com"
      (UpdateUser exampleClient "a@b.com" "q" "B" 30 exampleReadOnlyFs).2
      = (exampleUser, none) ∧
    exampleUser.Password ≠ "q" := by
  refine ⟨rfl, rfl, rfl, ?_, rfl, ?_⟩
  · decide
  · decide

/-- The result of `UpdateUser` on a key that is present. -/
theorem UpdateUser_of_key (c : Client) (email password name : String) (age : Int)
    (fs : FileSystem) (db : databaseSchema) (users : GoMap User) (u : User)
    (hread : readDB c fs = (db, none)) (hU : db.Users = some users)
    (hu : users.lookup email = some u) :
    (fs.writeError c.file = none →
      UpdateUser c email password name age fs
        = ((⟨u.CreatedAt, u.Email, password, name, age⟩, none),
            fs.store c.file (.json { db with
              Users := some (users.insert email
                ⟨u.CreatedAt, u.Email, password, name, age⟩) }))) ∧
    (∀ msg, fs.writeError c.file = some msg →
      UpdateUser c email password name age fs
        = ((⟨u.CreatedAt, u.Email, password, name, age⟩, some (.WriteFile msg)), fs)) := by
  constructor
  · intro hw
    simp [UpdateUser, hread, hU, hu, updateDB_of_writable _ _ _ hw]
  · intro msg hw
    simp [UpdateUser, hread, hU, hu, updateDB_of_unwritable _ _ _ msg hw]

/-- C3 (amended): on a readable store that holds a user under `email` and whose
backing file can be written, `UpdateUser` succeeds; the record under `email`
afterwards keeps its email and createdAt and carries the given password, name
and age; every other user and the posts are unchanged.  When `email` is not a
key, it fails with not-found and writes nothing. -/
theorem UpdateUser_frame (c : Client) (email password name : String) (age : Int)
    (fs : FileSystem) (db : databaseSchema) (hread : readDB c fs = (db, none)) :
    (∀ u, mapLookup db.Users email = some u → fs.writeError c.file = none →
      (UpdateUser c email password name age fs).1
        = (⟨u.CreatedAt, u.Email, password, name, age⟩, none) ∧
      ∃ db1, readDB c (UpdateUser c email password name age fs).2 = (db1, none) ∧
        mapLookup db1.Users email = some ⟨u.CreatedAt, u.Email, password, name, age⟩ ∧
        (∀ k, k ≠ email → mapLookup db1.Users k = mapLookup db.Users k) ∧
        db1.Posts = db.Posts) ∧
    (mapLookup db.Users email = none →
      UpdateUser c email password name age fs
        = ((User.zero, some (.New "User doesn't exists")), fs)) := by
  constructor
  · intro u hu hw
    cases hU : db.Users with
    | none => simp [mapLookup, hU] at hu
    | some users =>
      have hu1 : users.lookup email = some u := by simpa [mapLookup, hU] using hu
      rw [(UpdateUser_of_key c email password name age fs db users u hread hU hu1).1 hw]
      refine ⟨rfl, { db with
        Users := some (users.insert email ⟨u.CreatedAt, u.Email, password, name, age⟩) },
        readDB_store _ _ _, ?_, ?_, rfl⟩
      · simp [mapLookup]
      · intro k hk
        simp [mapLookup, hU, AList.lookup_insert_ne hk]
  · intro hkey
    cases hU : db.Users with
    | none => simp [UpdateUser, hread, hU]
    | some users =>
      have hu1 : users.lookup email = none := by simpa [mapLookup, hU] using hkey
      simp [UpdateUser, hread, hU, hu1]

theorem UpdateUser_frame_witness :
    (UpdateUser exampleClient "a@b.com" "q" "B" 30 exampleFs).1
      = (⟨exampleUser.CreatedAt, exampleUser.Email, "q", "B", 30⟩, none) ∧
    ∃ db1, readDB exampleClient (UpdateUser exampleClient "a@b.com" "q" "B" 30 exampleFs).2
        = (db1, none) ∧
      mapLookup db1.Users "a@b.com"
        = some ⟨exampleUser.CreatedAt, exampleUser.Email, "q", "B", 30⟩ ∧
      (∀ k, k ≠ "a@b.com" → mapLookup db1.Users k = mapLookup exampleDb.Users k) ∧
      db1.Posts = exampleDb.Posts :=
  (UpdateUser_frame exampleClient "a@b.com" "q" "B" 30 exampleFs exampleDb rfl).1
    exampleUser rfl rfl

/-- C4: after a successful `CreateUser` returning `u`, `Getuser` on the
resulting store succeeds and returns a record with the given email, password,
name and age and the createdAt of `u`. -/
theorem Getuser_after_CreateUser (c : Client) (now : Time) (email password name : String)
    (age : Int) (fs fs1 : FileSystem) (u : User)
    (h : CreateUser c now email password name age fs = ((u, none), fs1)) :
    ∃ u1, Getuser c email fs1 = (u1, none) ∧ u1.Email = email ∧
      u1.CreatedAt = u.CreatedAt ∧ u1.Password = password ∧ u1.Name = name ∧
      u1.Age = age := by
  cases hel : userIsEligible email password age with
  | some err => simp [CreateUser, hel] at h
  | none =>
    cases hrd : readDB c fs with
    | mk db oerr =>
      cases oerr with
      | some err => simp [CreateUser, hel, hrd] at h
      | none =>
        cases hkey : mapLookup db.Users email with
        | some u0 =>
          rw [CreateUser_of_key c now email password name age fs db u0 hel hrd hkey] at h
          simp at h
        | none =>
          cases hw : fs.writeError c.file with
          | some msg =>
            rw [CreateUser_of_new_unwritable c now email password name age fs db msg hel hrd
              hkey hw] at h
            simp at h
          | none =>
            rw [CreateUser_of_new_writable c now email password name age fs db hel hrd
              hkey hw] at h
            simp only [Prod.mk.injEq, and_true] at h
            obtain ⟨hu, hfs⟩ := h
            have hread1 : readDB c fs1 = ({ db with
                Users := some ((mapInit db.Users).insert email u) }, none) := by
              rw [← hfs, ← hu]
              exact readDB_store _ _ _
            refine ⟨u, ?_, ?_⟩
            · simp [Getuser, hread1, mapLookup, hu]
            · simp [← hu]

theorem Getuser_after_CreateUser_witness :
    ∃ u1, Getuser exampleClient "c@d.com"
        (CreateUser exampleClient 7 "c@d.com" "q" "C" 18 exampleFs).2 = (u1, none) ∧
      u1.Email = "c@d.com" ∧
      u1.CreatedAt = (CreateUser exampleClient 7 "c@d.com" "q" "C" 18 exampleFs).1.1.CreatedAt ∧
      u1.Password = "q" ∧ u1.Name = "C" ∧ u1.Age = 18 :=
  Getuser_after_CreateUser exampleClient 7 "c@d.com" "q" "C" 18 exampleFs _ _ rfl

/-! ## Posts -/

/-- C5: on a readable store, `CreatePost` for a non-empty `userEmail` that is
not a key of the users fails with not-found and writes nothing, so the posts are
the same after the call as before it. -/
theorem CreatePost_unknown_user (c : Client) (now : Time) (id userEmail text : String)
    (fs : FileSystem) (db : databaseSchema) (hread : readDB c fs = (db, none))
    (hne : userEmail ≠ "") (hkey : mapLookup db.Users userEmail = none) :
    CreatePost c now id userEmail text fs
      = ((Post.zero, some (.New "User does not exist")), fs) ∧
    readDB c (CreatePost c now id userEmail text fs).2 = (db, none) := by
  have h : CreatePost c now id userEmail text fs
      = ((Post.zero, some (.New "User does not exist")), fs) := by
    simp [CreatePost, hread, validatePostParams, hne, hkey]
  exact ⟨h, by rw [h]; exact hread⟩

theorem CreatePost_unknown_user_witness :
    CreatePost exampleClient 7 "id-9" "x@y.com" "hello" examplePostsFs
      = ((Post.zero, some (.New "User does not exist")), examplePostsFs) ∧
    readDB exampleClient
      (CreatePost exampleClient 7 "id-9" "x@y.com" "hello" examplePostsFs).2
      = (examplePostsDb, none) :=
  CreatePost_unknown_user exampleClient 7 "id-9" "x@y.com" "hello" examplePostsFs
    examplePostsDb rfl (by decide) rfl

/-- The loop of `GetPosts` collects, in visiting order, the posts of the entries
whose `UserEmail` is the argument. -/
theorem GetPosts_loop (userEmail : String) (l : List (Sigma fun _ : String => Post))
    (acc : List Post) :
    l.foldl (fun posts entry =>
        if entry.2.UserEmail = userEmail then posts ++ [entry.2] else posts) acc
      = acc ++ (l.filter (fun entry => decide (entry.2.UserEmail = userEmail))).map
          (fun entry => entry.2) := by
  induction l generalizing acc with
  | nil => simp
  | cons e l ih =>
    by_cases h : e.2.UserEmail = userEmail
    · simp [List.foldl_cons, ih, h, List.filter_cons]
    · simp [List.foldl_cons, ih, h, List.filter_cons]

/-- C6: on a readable store `GetPosts` succeeds, whatever order the loop visits
the map in; the posts it returns are those stored under a duplicate-free list of
ids, which are exactly the ids of the stored posts whose `UserEmail` is the
argument; no returned post has another `UserEmail`; and the result is empty when
no stored post matches, in particular when the posts map is nil. -/
theorem GetPosts_exact (c : Client) (order : RangeOrder) (userEmail : String)
    (fs : FileSystem) (db : databaseSchema) (hord : order.Valid)
    (hread : readDB c fs = (db, none)) :
    ∃ posts, GetPosts c order userEmail fs = (posts, none) ∧
      (∃ ids : List String, ids.Nodup ∧
        (∀ id, id ∈ ids ↔ ∃ p, mapLookup db.Posts id = some p ∧ p.UserEmail = userEmail) ∧
        posts.map some = ids.map (mapLookup db.Posts)) ∧
      (∀ p ∈ posts, p.UserEmail = userEmail) ∧
      ((∀ id p, mapLookup db.Posts id = some p → p.UserEmail ≠ userEmail) → posts = []) ∧
      (db.Posts = none → posts = []) := by
  have hperm := hord (mapInit db.Posts)
  have hnd : (order (mapInit db.Posts)).NodupKeys :=
    (List.perm_nodupKeys hperm).2 (mapInit db.Posts).nodupKeys
  have hmem : ∀ (id : String) (p : Post),
      Sigma.mk id p ∈ order (mapInit db.Posts) ↔ mapLookup db.Posts id = some p := by
    intro id p
    rw [← lookup_mapInit, hperm.mem_iff, ← AList.mem_lookup_iff]
    simp
  refine ⟨_, by simp only [GetPosts, hread, GetPosts_loop, List.nil_append]; rfl, ?_, ?_, ?_, ?_⟩
  · refine ⟨((order (mapInit db.Posts)).filter
        (fun entry => decide (entry.2.UserEmail = userEmail))).map (fun entry => entry.1),
      ?_, ?_, ?_⟩
    · exact hnd.sublist (List.filter_sublist _)
    · intro id
      simp only [List.mem_map, List.mem_filter, decide_eq_true_eq]
      constructor
      · rintro ⟨⟨k, p⟩, ⟨hin, hue⟩, rfl⟩
        exact ⟨p, (hmem k p).1 hin, hue⟩
      · rintro ⟨p, hp, hue⟩
        exact ⟨⟨id, p⟩, ⟨(hmem id p).2 hp, hue⟩, rfl⟩
    · rw [List.map_map, List.map_map]
      apply List.map_congr_left
      rintro ⟨k, p⟩ hin
      exact ((hmem k p).1 (List.mem_filter.1 hin).1).symm
  · intro p hp
    simp only [List.mem_map, List.mem_filter, decide_eq_true_eq] at hp
    obtain ⟨e, ⟨_, hue⟩, rfl⟩ := hp
    exact hue
  · intro hnone
    rw [List.map_eq_nil_iff, List.filter_eq_nil_iff]
    rintro ⟨k, p⟩ hin
    simpa using hnone k p ((hmem k p).1 hin)
  · intro hnil
    rw [List.map_eq_nil_iff, List.filter_eq_nil_iff]
    rintro ⟨k, p⟩ hin
    have := (hmem k p).1 hin
    simp [hnil, mapLookup] at this

theorem GetPosts_exact_witness :
    ∃ posts, GetPosts exampleClient exampleOrder "a@b.com" examplePostsFs = (posts, none) ∧
      (∃ ids : List String, ids.Nodup ∧
        (∀ id, id ∈ ids ↔
          ∃ p, mapLookup examplePostsDb.Posts id = some p ∧ p.UserEmail = "a@b.com") ∧
        posts.map some = ids.map (mapLookup examplePostsDb.Posts)) ∧
      (∀ p ∈ posts, p.UserEmail = "a@b.com") ∧
      ((∀ id p, mapLookup examplePostsDb.Posts id = some p → p.UserEmail ≠ "a@b.com") →
        posts = []) ∧
      (examplePostsDb.Posts = none → posts = []) :=
  GetPosts_exact exampleClient exampleOrder "a@b.com" examplePostsFs examplePostsDb
    (fun _ => List.Perm.refl _) rfl

/-- C7 (as stated, refuted): the backing file is readable, holds a user under
`a@b.com` and cannot be written; `DeleteUser` returns the error of the write,
and `Getuser` for `a@b.com` afterwards still finds the user. -/
theorem DeleteUser_fails_on_write_error :
    readDB exampleClient exampleReadOnlyFs = (exampleDb, none) ∧
    (DeleteUser exampleClient "a@b.com" exampleReadOnlyFs).1
      = some (.WriteFile "open db.json: permission denied") ∧
    (DeleteUser exampleClient "a@b.com" exampleReadOnlyFs).1 ≠ none ∧
    Getuser exampleClient "a@b.com" (DeleteUser exampleClient "a@b.com" exampleReadOnlyFs).2
      = (exampleUser, none) ∧
    (DeleteUser exampleClient "x@y.com" exampleReadOnlyFs).1 ≠ none := by
  refine ⟨rfl, rfl, ?_, rfl, ?_⟩
  · decide
  · decide

/-- C7 (amended): on a readable store whose backing file can be written,
`DeleteUser` returns no error whether or not `email` is a key (also when the
users map is nil); `Getuser` for `email` on the resulting store fails with
not-found; every other user and the posts are unchanged. -/
theorem DeleteUser_then_Getuser (c : Client) (email : String) (fs : FileSystem)
    (db : databaseSchema) (hread : readDB c fs = (db, none))
    (hw : fs.writeError c.file = none) :
    (DeleteUser c email fs).1 = none ∧
    Getuser c email (DeleteUser c email fs).2
      = (User.zero, some (.New "User doesn[t exists")) ∧
    ∃ db1, readDB c (DeleteUser c email fs).2 = (db1, none) ∧
      (∀ k, k ≠ email → mapLookup db1.Users k = mapLookup db.Users k) ∧
      db1.Posts = db.Posts := by
  have hres : DeleteUser c email fs
      = (none, fs.store c.file (.json { db with Users := mapDelete db.Users email })) := by
    simp [DeleteUser, hread, updateDB_of_writable _ _ _ hw]
  rw [hres]
  refine ⟨rfl, ?_, { db with Users := mapDelete db.Users email },
    readDB_store _ _ _, ?_, rfl⟩
  · simp [Getuser, readDB_store, mapLookup_mapDelete_self]
  · intro k hk
    exact mapLookup_mapDelete_ne db.Users email k hk

theorem DeleteUser_then_Getuser_witness :
    (DeleteUser exampleClient "x@y.com" exampleFs).1 = none ∧
    Getuser exampleClient "x@y.com" (DeleteUser exampleClient "x@y.com" exampleFs).2
      = (User.zero, some (.New "User doesn[t exists")) ∧
    ∃ db1, readDB exampleClient (DeleteUser exampleClient "x@y.com" exampleFs).2
        = (db1, none) ∧
      (∀ k, k ≠ "x@y.com" → mapLookup db1.Users k = mapLookup exampleDb.Users k) ∧
      db1.Posts = exampleDb.Posts :=
  DeleteUser_then_Getuser exampleClient "x@y.com" exampleFs exampleDb rfl rfl

/-- With the key present: `DeleteUser` on a writable store removes the user. -/
theorem DeleteUser_removes_present_user :
    mapLookup exampleDb.Users "a@b.com" = some exampleUser ∧
    (DeleteUser exampleClient "a@b.com" exampleFs).1 = none ∧
    Getuser exampleClient "a@b.com" (DeleteUser exampleClient "a@b.com" exampleFs).2
      = (User.zero, some (.New "User doesn[t exists")) := by
  refine ⟨rfl, rfl, rfl⟩

/-! ## The validation rule on stored users -/

/-- `CreateUser` keeps `UsersValid`. -/
theorem CreateUser_UsersValid (c : Client) (now : Time) (email password name : String)
    (age : Int) (fs : FileSystem) (db db1 : databaseSchema)
    (hread : readDB c fs = (db, none)) (hv : UsersValid db)
    (hread1 : readDB c (CreateUser c now email password name age fs).2 = (db1, none)) :
    UsersValid db1 := by
  have hsame : (CreateUser c now email password name age fs).2 = fs → UsersValid db1 := by
    intro hfs
    rw [hfs, hread] at hread1
    cases hread1
    exact hv
  cases hel : userIsEligible email password age with
  | some err => exact hsame (by simp [CreateUser, hel])
  | none =>
    cases hkey : mapLookup db.Users email with
    | some u0 =>
      exact hsame (by rw [CreateUser_of_key c now email password name age fs db u0 hel hread hkey])
    | none =>
      cases hw : fs.writeError c.file with
      | some msg =>
        exact hsame (by
          rw [CreateUser_of_new_unwritable c now email password name age fs db msg hel hread
            hkey hw])
      | none =>
        rw [CreateUser_of_new_writable c now email password name age fs db hel hread hkey hw,
          readDB_store] at hread1
        cases hread1
        obtain ⟨h1, h2, h3⟩ := (userIsEligible_none_iff email password age).1 hel
        intro k u hk
        by_cases hke : k = email
        · subst hke
          simp only [mapLookup, AList.lookup_insert, Option.some.injEq] at hk
          subst hk
          exact ⟨h3, h2, h1⟩
        · simp only [mapLookup, AList.lookup_insert_ne hke, lookup_mapInit] at hk
          exact hv k u hk

/-- `DeleteUser`, `CreatePost` and `DeletePost` keep `UsersValid`. -/
theorem delete_and_posts_UsersValid (c : Client) (now : Time) (id email text : String)
    (fs : FileSystem) (db : databaseSchema) (hread : readDB c fs = (db, none))
    (hv : UsersValid db) :
    (∀ db1, readDB c (DeleteUser c email fs).2 = (db1, none) → UsersValid db1) ∧
    (∀ db1, readDB c (CreatePost c now id email text fs).2 = (db1, none) → UsersValid db1) ∧
    (∀ db1, readDB c (DeletePost c id fs).2 = (db1, none) → UsersValid db1) := by
  have hdel : UsersValid { db with Users := mapDelete db.Users email } := by
    intro k u hk
    by_cases hke : k = email
    · subst hke
      simp [mapLookup_mapDelete_self] at hk
    · rw [mapLookup_mapDelete_ne _ _ _ hke] at hk
      exact hv k u hk
  have hupd : ∀ dbw db1 : databaseSchema, UsersValid dbw →
      readDB c (updateDB c dbw fs).2 = (db1, none) → UsersValid db1 := by
    intro dbw db1 hvw h1
    rcases readDB_updateDB c db dbw fs hread with h | h
    · rw [h] at h1
      cases h1
      exact hvw
    · rw [h] at h1
      cases h1
      exact hv
  refine ⟨?_, ?_, ?_⟩
  · intro db1 h1
    have hres : DeleteUser c email fs
        = updateDB c { db with Users := mapDelete db.Users email } fs := by
      simp [DeleteUser, hread]
    rw [hres] at h1
    exact hupd _ db1 hdel h1
  · intro db1 h1
    have hsame : (CreatePost c now id email text fs).2 = fs → UsersValid db1 := by
      intro hfs
      rw [hfs, hread] at h1
      cases h1
      exact hv
    cases hvp : validatePostParams email with
    | some err => exact hsame (by simp [CreatePost, hread, hvp])
    | none =>
      cases hkey : mapLookup db.Users email with
      | none => exact hsame (by simp [CreatePost, hread, hvp, hkey])
      | some u0 =>
        have hres : (CreatePost c now id email text fs).2
            = (updateDB c { db with
                Posts := some ((mapInit db.Posts).insert id ⟨id, now, email, text⟩) } fs).2 := by
          simp only [CreatePost, hread, hvp, hkey]
          split <;> simp_all
        rw [hres] at h1
        exact hupd _ db1 (by intro k u hk; exact hv k u hk) h1
  · intro db1 h1
    have hres : DeletePost c id fs
        = updateDB c { db with Posts := mapDelete db.Posts id } fs := by
      simp [DeletePost, hread]
    rw [hres] at h1
    exact hupd _ db1 (by intro k u hk; exact hv k u hk) h1

/-- C8 (the code at the failing input): the store holds one user, who satisfies
the validation rule; `UpdateUser` with an empty password and age 0 succeeds, and
the user it leaves in the store has age 0 and an empty password, so the rule no
longer holds of the store. -/
theorem UpdateUser_breaks_UsersValid :
    readDB exampleClient exampleFs = (exampleDb, none) ∧
    UsersValid exampleDb ∧
    (UpdateUser exampleClient "a@b.com" "" "" 0 exampleFs).1
      = (⟨100, "a@b.com", "", "", 0⟩, none) ∧
    ∃ db1, readDB exampleClient (UpdateUser exampleClient "a@b.com" "" "" 0 exampleFs).2
        = (db1, none) ∧
      mapLookup db1.Users "a@b.com" = some ⟨100, "a@b.com", "", "", 0⟩ ∧
      ¬ UsersValid db1 := by
  refine ⟨rfl, ?_, rfl, ⟨some (AList.singleton "a@b.com" ⟨100, "a@b.com", "", "", 0⟩), none⟩,
    rfl, rfl, ?_⟩
  · intro k u hk
    by_cases hke : k = "a@b.com"
    · subst hke
      have hu : u = exampleUser := by
        have : mapLookup exampleDb.Users "a@b.com" = some exampleUser := rfl
        rw [this] at hk
        exact (Option.some.inj hk).symm
      subst hu
      decide
    · have : mapLookup exampleDb.Users k = none := by
        simp [mapLookup, exampleDb, AList.lookup_eq_none, AList.mem_keys, hke]
      rw [this] at hk
      cases hk
  · intro hv
    have := (hv "a@b.com" ⟨100, "a@b.com", "", "", 0⟩ rfl).1
    revert this
    decide

/-! ## EnsureDb -/

/-- What `EnsureDb` does on any file system: it attempts to write the empty
schema to the backing file exactly when `testdata/hello` cannot be read. -/
theorem EnsureDb_eq (c : Client) (fs : FileSystem) :
    (fs.files "testdata/hello" = none → fs.writeError c.file = none →
      EnsureDb c fs = (none, fs.store c.file (.json databaseSchema.zero))) ∧
    (∀ msg, fs.files "testdata/hello" = none → fs.writeError c.file = some msg →
      EnsureDb c fs = (some (.WriteFile msg), fs)) ∧
    (fs.files "testdata/hello" ≠ none → EnsureDb c fs = (none, fs)) := by
  refine ⟨?_, ?_, ?_⟩
  · intro h hw
    simp [EnsureDb, osReadFile, h, createDb, jsonMarshal, osWriteFile, hw]
  · intro msg h hw
    simp [EnsureDb, osReadFile, h, createDb, jsonMarshal, osWriteFile, hw]
  · intro h
    cases hd : fs.files "testdata/hello" with
    | none => exact absurd hd h
    | some d => simp [EnsureDb, osReadFile, hd]

/-- C9 (the code at the failing inputs): with the backing file `db.json` present
and `testdata/hello` absent, `EnsureDb` replaces the content of `db.json` by the
empty schema; with `db.json` absent and `testdata/hello` present, `EnsureDb`
writes nothing and `db.json` stays absent. -/
theorem EnsureDb_checks_other_path :
    (exampleFs.files "db.json" = some (.json exampleDb) ∧
      (EnsureDb exampleClient exampleFs).2.files "db.json"
        = some (.json databaseSchema.zero) ∧
      (EnsureDb exampleClient exampleFs).2.files "db.json" ≠ exampleFs.files "db.json") ∧
    (exampleHelloFs.files "db.json" = none ∧
      (EnsureDb exampleClient exampleHelloFs).1 = none ∧
      (EnsureDb exampleClient exampleHelloFs).2.files "db.json" = none) := by
  refine ⟨⟨rfl, rfl, ?_⟩, rfl, rfl, rfl⟩
  decide

end database

namespace socialmedia

open database

/-! ## Response headers -/

/-- The two headers `respondWithJSON` sets. -/
theorem respondWithJSON_headers (code : Nat) (payload : Option Payload) :
    (finishRequest (respondWithJSON ResponseWriter.fresh code payload)).Get "Content-Type"
      = some "application/json" ∧
    (finishRequest (respondWithJSON ResponseWriter.fresh code payload)).Get
        "Access-Control-Allow-Methods" = some "POST, GET, OPTIONS, PUT, DELETE" := by
  cases payload with
  | none => exact ⟨rfl, rfl⟩
  | some pl => exact ⟨rfl, rfl⟩

/-- A writer is well answered when it went through `respondWithJSON`. -/
theorem respondWithError_headers (code : Nat) (err : Error) :
    (finishRequest (respondWithError ResponseWriter.fresh code (some err))).Get "Content-Type"
      = some "application/json" ∧
    (finishRequest (respondWithError ResponseWriter.fresh code (some err))).Get
        "Access-Control-Allow-Methods" = some "POST, GET, OPTIONS, PUT, DELETE" :=
  respondWithJSON_headers code (some (.errorBody ⟨err.message⟩))

/-- Every response of a registered handler either carries both headers or is
the bare 201 of a `POST` on the users or posts endpoint. -/
theorem serve_headers_or_created (cfg : apiConfig) (dec : Decoders) (order : RangeOrder)
    (now : Time) (id : String) (h : Handler) (r : Request) (fs : FileSystem) :
    ((serve cfg dec order now id h r fs).1.Get "Content-Type" = some "application/json" ∧
      (serve cfg dec order now id h r fs).1.Get "Access-Control-Allow-Methods"
        = some "POST, GET, OPTIONS, PUT, DELETE") ∨
    ((serve cfg dec order now id h r fs).1 = ⟨201, [], []⟩ ∧ r.Method = "POST" ∧
      (h = .users ∨ h = .posts)) := by
  cases h with
  | test => exact Or.inl (respondWithJSON_headers _ _)
  | testErr => exact Or.inl (respondWithError_headers _ _)
  | users =>
    simp only [serve, endpointUsersHandler]
    split_ifs with h1 h2 h3 h4
    · left
      simp only [handlerGetUser]
      split
      · dsimp only; exact respondWithError_headers _ _
      · dsimp only; exact respondWithJSON_headers _ _
    · simp only [handlerCreateUser]
      split
      · left; dsimp only; exact respondWithError_headers _ _
      · split
        · left; dsimp only; exact respondWithError_headers _ _
        · exact Or.inr ⟨rfl, h2, by simp⟩
    · left
      simp only [handlerUpdateUser]
      split
      · dsimp only; exact respondWithError_headers _ _
      · split
        · dsimp only; exact respondWithError_headers _ _
        · dsimp only; exact respondWithJSON_headers _ _
    · left
      simp only [handlerDeleteUser]
      split
      · dsimp only; exact respondWithError_headers _ _
      · dsimp only; exact respondWithJSON_headers _ _
    · left; dsimp only; exact respondWithError_headers _ _
  | posts =>
    simp only [serve, endpointPostsHandler]
    split_ifs with h1 h2 h3
    · left
      simp only [handlerGetPosts]
      split
      · dsimp only; exact respondWithError_headers _ _
      · dsimp only; exact respondWithJSON_headers _ _
    · simp only [handlerCreatePost]
      split
      · left; dsimp only; exact respondWithError_headers _ _
      · split
        · left; dsimp only; exact respondWithError_headers _ _
        · exact Or.inr ⟨rfl, h2, by simp⟩
    · left
      simp only [handlerDeletePost]
      split
      · dsimp only; exact respondWithError_headers _ _
      · dsimp only; exact respondWithJSON_headers _ _
    · left; dsimp only; exact respondWithError_headers _ _

/-- C10 (the code at the failing inputs): a `POST /users` that creates a user
and a `POST /posts` that creates a post are answered with status 201 and neither
a `Content-Type` nor an `Access-Control-Allow-Methods` header. -/
theorem created_responses_have_no_headers :
    ((serve apiCfg exampleDecoders exampleOrder 7 "id-9" .users examplePostUsers
        exampleFs).1.status = 201 ∧
      (serve apiCfg exampleDecoders exampleOrder 7 "id-9" .users examplePostUsers
        exampleFs).1.Get "Content-Type" = none ∧
      (serve apiCfg exampleDecoders exampleOrder 7 "id-9" .users examplePostUsers
        exampleFs).1.Get "Access-Control-Allow-Methods" = none) ∧
    ((serve apiCfg exampleDecoders exampleOrder 7 "id-9" .posts examplePostPosts
        exampleFs).1.status = 201 ∧
      (serve apiCfg exampleDecoders exampleOrder 7 "id-9" .posts examplePostPosts
        exampleFs).1.Get "Content-Type" = none ∧
      (serve apiCfg exampleDecoders exampleOrder 7 "id-9" .posts examplePostPosts
        exampleFs).1.Get "Access-Control-Allow-Methods" = none) := by
  refine ⟨⟨rfl, rfl, rfl⟩, rfl, rfl, rfl⟩

end socialmedia
